import Mathlib

/-!
# Pendulum position control: motion profile, simulated actuator and control loop

Shallow embedding of `Assignment2/Software/pendulum_control.cpp`.

Modelling conventions
* C++ `double` values are idealised as exact rationals (`ℚ`): every constant of
  the motion code (`0.5`, `2.0`, `5.0`, `30.0`, `60.0`, `90.0`) is exactly
  representable, and the theorems below are statements about the exact
  arithmetic of the formulas, not about rounding.
* The load torque involves a sine and is modelled over the real numbers (`ℝ`).
* The actuator's rate-limit bounds are tight, so they are stated on a second
  embedding of the actuator step in which every operation is rounded to the
  nearest `double` (`roundDouble`, `sendMotorCommandRounded`).
* Clock readings (`std::chrono::steady_clock::now()`) are inputs, in seconds.
* Member variables written by a method are returned in an updated
  `PendulumController` value.
-/

namespace PendulumControl

/-! ## Configuration constants (lines 31-34) -/

/-- `MIN_ANGLE`, degrees (horizontal). -/
def MIN_ANGLE : ℚ := 0

/-- `MAX_ANGLE`, degrees (vertical). -/
def MAX_ANGLE : ℚ := 90

/-- `MAX_VELOCITY`, degrees per second. -/
def MAX_VELOCITY : ℚ := 30

/-- `ACCELERATION`, degrees per second squared. -/
def ACCELERATION : ℚ := 60

/-! ## Controller state -/

/-- The data members of `class PendulumController` that the motion code reads
and writes, together with the function-local `static last_command_time` of
`sendMotorCommand` (C++ initialises that static at the first call, with the
clock reading taken at that moment; a controller value carries it as a field). -/
structure PendulumController where
  current_position_ : ℚ
  target_position_ : ℚ
  current_velocity_ : ℚ
  current_cycle_ : Int
  direction_up_ : Bool
  last_command_time : ℚ
  deriving DecidableEq

/-- The member initialisers of the constructor (lines 78-84); `clock` is the
reading that the static `last_command_time` starts from. -/
def PendulumController.construct (clock : ℚ) : PendulumController :=
  { current_position_ := 0
    target_position_ := 0
    current_velocity_ := 0
    current_cycle_ := 0
    direction_up_ := true
    last_command_time := clock }

/-! ## Motion profile generator (lines 114-159) -/

/-- Which arm of the `if / else if / else` chain of lines 129-152 was taken. -/
inductive ProfilePhase where
  | acceleration
  | constant
  | deceleration
  | endpoint
  deriving DecidableEq, Repr

/-- The values computed by one evaluation of the body of
`generateMotionProfile`: the returned `position`, the `velocity` stored into
`current_velocity_`, and (as a ghost label) the branch that produced them. -/
structure ProfileSample where
  phase : ProfilePhase
  position : ℚ
  velocity : ℚ
  deriving DecidableEq

/-- Lines 115-155 of `generateMotionProfile`, statement by statement. The
reassignment of `accel_time` and `const_time` inside `if (const_time < 0)` is
written as two conditional bindings on the same test; the locals that are
assigned but never read (`decel_time`, and `t` of the deceleration branch) are
left out. -/
def profileSample (start_pos end_pos current_time total_time : ℚ) : ProfileSample :=
  let distance := end_pos - start_pos
  let accel_time₀ := MAX_VELOCITY / ACCELERATION
  let const_time₀ := total_time - accel_time₀ - accel_time₀
  let accel_time := if const_time₀ < 0 then total_time / 2 else accel_time₀
  let const_time := if const_time₀ < 0 then 0 else const_time₀
  let s : ProfileSample :=
    if current_time ≤ accel_time then
      let t := current_time
      { phase := .acceleration
        position := start_pos + 0.5 * ACCELERATION * t * t
        velocity := ACCELERATION * t }
    else if current_time ≤ accel_time + const_time then
      let t := current_time - accel_time
      { phase := .constant
        position := start_pos + 0.5 * ACCELERATION * accel_time * accel_time + MAX_VELOCITY * t
        velocity := MAX_VELOCITY }
    else if current_time < total_time then
      let t_remaining := total_time - current_time
      { phase := .deceleration
        position := end_pos - 0.5 * ACCELERATION * t_remaining * t_remaining
        velocity := ACCELERATION * t_remaining }
    else
      { phase := .endpoint
        position := end_pos
        velocity := 5 }
  { s with velocity := if distance < 0 then -s.velocity else s.velocity }

/-- `double generateMotionProfile(start_pos, end_pos, current_time, total_time)`:
returns the position and stores the velocity in `current_velocity_` (line 157). -/
def generateMotionProfile (self : PendulumController)
    (start_pos end_pos current_time total_time : ℚ) : ℚ × PendulumController :=
  let s := profileSample start_pos end_pos current_time total_time
  (s.position, { self with current_velocity_ := s.velocity })

/-! ## Simulated actuator (lines 171-193) -/

/-- `bool sendMotorCommand(position, velocity)`; `now` is the clock reading of
line 178. `abs(error)` is taken on the `double` (the floating-point overload of
`abs`), as the comparison with `max_step` intends. The unused static
`last_command_pos` is left out. The arithmetic is exact here: in particular
`current_position_ + max_step` is not rounded. `sendMotorCommandRounded` below
is the same step with every operation rounded to a `double`; the two claims
whose bounds are tight enough to depend on rounding are stated on it. -/
def sendMotorCommand (self : PendulumController) (position _velocity now : ℚ) :
    Bool × PendulumController :=
  let dt := now - self.last_command_time
  let error := position - self.current_position_
  let max_step := MAX_VELOCITY * dt
  let current_position :=
    if |error| > max_step then
      self.current_position_ + (if error > 0 then max_step else -max_step)
    else
      position
  (true, { self with current_position_ := current_position, last_command_time := now })

/-! ## Double-precision rounding and the actuator step in doubles

The tight actuator bounds depend on how `double` arithmetic rounds. The
definitions below give IEEE 754 binary64 rounding (round to nearest, ties to
even, 53 significant bits) on rationals; the exponent range is unbounded, so
overflow and subnormal numbers are not represented (the positions, times and
steps of the program are far from both ends). -/

/-- Nearest integer to `q`, a tie going to the even neighbour. -/
def roundHalfEven (q : ℚ) : ℤ :=
  if q - ⌊q⌋ < 1 / 2 then ⌊q⌋
  else if 1 / 2 < q - ⌊q⌋ then ⌊q⌋ + 1
  else if ⌊q⌋ % 2 = 0 then ⌊q⌋
  else ⌊q⌋ + 1

/-- Rounding of a non-negative rational to 53 significant bits: the value is
scaled by its binade to a significand in `[2^52, 2^53)`, which is rounded to an
integer. -/
def roundMagnitude (x : ℚ) : ℚ :=
  if x = 0 then 0
  else roundHalfEven (x / 2 ^ (Int.log 2 x - 52)) * 2 ^ (Int.log 2 x - 52)

/-- The `double` nearest to the rational `x` (sign and magnitude, as in the
binary64 format). -/
def roundDouble (x : ℚ) : ℚ :=
  if x < 0 then -roundMagnitude (-x) else roundMagnitude x

/-- `sendMotorCommand` (lines 171-193) with every arithmetic operation of lines
179-186 rounded to a `double`: the conversion of the elapsed time to seconds,
the subtraction, the product and the addition. `abs` and the negation are exact
on doubles. -/
def sendMotorCommandRounded (self : PendulumController) (position _velocity now : ℚ) :
    Bool × PendulumController :=
  let dt := roundDouble (now - self.last_command_time)
  let error := roundDouble (position - self.current_position_)
  let max_step := roundDouble (MAX_VELOCITY * dt)
  let current_position :=
    if |error| > max_step then
      roundDouble (self.current_position_ + (if error > 0 then max_step else -max_step))
    else
      position
  (true, { self with current_position_ := current_position, last_command_time := now })

/-- A controller standing at `position` whose previous motor command was issued
at `clock`. -/
def PendulumController.atPosition (position clock : ℚ) : PendulumController :=
  { PendulumController.construct clock with current_position_ := position }

/-! ## Telemetry record and logging (lines 52-62, 162-168, 196-211) -/

/-- `POSITION_TOLERANCE`, degrees. -/
def POSITION_TOLERANCE : ℚ := 0.5

/-- `MAX_CYCLES`, the cycle budget of the test. -/
def MAX_CYCLES : Int := 1000

/-- `struct CycleData` without its `load_torque` field: that value is
`calculateLoadTorque(current_position_)`, a sine, which no control decision
reads; the other fields are as in the source. -/
structure CycleData where
  cycle_number : Int
  timestamp : ℚ
  current_position : ℚ
  target_position : ℚ
  velocity : ℚ
  limit_switch_0 : Bool
  limit_switch_90 : Bool
  status : String
  deriving DecidableEq

/-- `readLimitSwitch0` (line 163). -/
def readLimitSwitch0 (self : PendulumController) : Bool :=
  decide (self.current_position_ ≤ MIN_ANGLE + POSITION_TOLERANCE)

/-- `readLimitSwitch90` (line 167). -/
def readLimitSwitch90 (self : PendulumController) : Bool :=
  decide (self.current_position_ ≥ MAX_ANGLE - POSITION_TOLERANCE)

/-- The state of a run of `runCyclingTest`: the motion members of the
controller, its `cycle_log_` and `start_time_` members, and the local variable
`cycle_start_time` of `runCyclingTest`. -/
structure CyclingState where
  controller : PendulumController
  cycle_log_ : List CycleData
  start_time_ : ℚ
  cycle_start_time : ℚ
  deriving DecidableEq

/-- A freshly constructed controller entering `runCyclingTest`: the constructor
ran at `start_time`, the static of `sendMotorCommand` starts from
`command_clock`, and line 233 read `cycle_start`. -/
def CyclingState.initial (start_time command_clock cycle_start : ℚ) : CyclingState :=
  { controller := PendulumController.construct command_clock
    cycle_log_ := []
    start_time_ := start_time
    cycle_start_time := cycle_start }

/-- `logCycleData(status)` (lines 196-211); `now` is the clock reading of line
197. The record is appended to `cycle_log_` (`push_back`); the CSV line written
to the file carries the same values. -/
def logCycleData (self : CyclingState) (status : String) (now : ℚ) : CyclingState :=
  let timestamp := now - self.start_time_
  let data : CycleData :=
    { cycle_number := self.controller.current_cycle_
      timestamp := timestamp
      current_position := self.controller.current_position_
      target_position := self.controller.target_position_
      velocity := self.controller.current_velocity_
      limit_switch_0 := readLimitSwitch0 self.controller
      limit_switch_90 := readLimitSwitch90 self.controller
      status := status }
  { self with cycle_log_ := self.cycle_log_ ++ [data] }

/-! ## Control loop (lines 227-292) -/

/-- What one evaluation of the loop guard and one iteration observe from
outside: the value of `g_running` read by the guard, and the clock readings of
line 236 (`now`), of `sendMotorCommand` and of `logCycleData`. -/
structure Tick where
  g_running : Bool
  now : ℚ
  command_time : ℚ
  log_time : ℚ
  deriving DecidableEq

/-- The local `motion_time` of `runCyclingTest` (line 232). -/
def motion_time : ℚ := 3

/-- The guard `g_running && current_cycle_ < MAX_CYCLES` (line 235). -/
def loopGuard (self : CyclingState) (tick : Tick) : Bool :=
  tick.g_running && decide (self.controller.current_cycle_ < MAX_CYCLES)

/-- One iteration of the `while` body (lines 236-281). Console output and the
sleep are left out; the `continue` of line 277 only skips the sleep. -/
def loopBody (self : CyclingState) (tick : Tick) : CyclingState :=
  let now := tick.now
  let elapsed := now - self.cycle_start_time
  let start_pos := if self.controller.direction_up_ then MIN_ANGLE else MAX_ANGLE
  let end_pos := if self.controller.direction_up_ then MAX_ANGLE else MIN_ANGLE
  if elapsed ≤ motion_time then
    let r := generateMotionProfile self.controller start_pos end_pos elapsed motion_time
    let c₁ : PendulumController := { r.2 with target_position_ := r.1 }
    let c₂ := (sendMotorCommand c₁ c₁.target_position_ c₁.current_velocity_ tick.command_time).2
    logCycleData { self with controller := c₂ }
      (if c₂.direction_up_ then "Moving_Up" else "Moving_Down") tick.log_time
  else
    let direction_up := !self.controller.direction_up_
    let current_cycle :=
      if !direction_up then self.controller.current_cycle_ + 1
      else self.controller.current_cycle_
    { self with
      controller :=
        { self.controller with direction_up_ := direction_up, current_cycle_ := current_cycle }
      cycle_start_time := now }

/-- Where the `while` loop stands after a finite list of observations: still
running (every guard so far held), or left at the first guard that failed,
together with the observation at which it failed. -/
inductive LoopResult where
  | running (state : CyclingState)
  | exited (state : CyclingState) (last : Tick)
  deriving DecidableEq

/-- The `while` loop of lines 235-282 over the observations `ticks`. -/
def whileLoop : CyclingState → List Tick → LoopResult
  | self, [] => .running self
  | self, tick :: rest =>
    if loopGuard self tick then whileLoop (loopBody self tick) rest
    else .exited self tick

/-- The controller state carried by a `LoopResult`. -/
def LoopResult.state : LoopResult → CyclingState
  | .running state => state
  | .exited state _ => state

/-- The safe shutdown of lines 286-288; the clock readings of its
`sendMotorCommand` and `logCycleData` calls are those of `tick`. -/
def safeShutdown (self : CyclingState) (tick : Tick) : CyclingState :=
  let c₁ : PendulumController := { self.controller with target_position_ := MIN_ANGLE }
  let c₂ := (sendMotorCommand c₁ c₁.target_position_ 0 tick.command_time).2
  logCycleData { self with controller := c₂ } "Shutdown_Safe" tick.log_time

/-- `runCyclingTest` up to the summary: `some` final state once the loop has
been left within the observations `ticks`, `none` while it is still running. -/
def runCyclingTest (self : CyclingState) (ticks : List Tick) : Option CyclingState :=
  match whileLoop self ticks with
  | .running _ => none
  | .exited state last => some (safeShutdown state last)

/-- Number of direction reversals among the iterations that `whileLoop` runs
over `ticks`: the iterations after which `direction_up_` differs from before. -/
def reversalCount : CyclingState → List Tick → Nat
  | _, [] => 0
  | self, tick :: rest =>
    if loopGuard self tick then
      (if (loopBody self tick).controller.direction_up_ = self.controller.direction_up_
        then 0 else 1) + reversalCount (loopBody self tick) rest
    else 0

/-- A tick at time `t` with `g_running` set and no clock advance inside the
iteration. -/
def Tick.running (t : ℚ) : Tick :=
  { g_running := true, now := t, command_time := t, log_time := t }

/-! ## Load torque (lines 25-26, 105-111) -/

/-- `PENDULUM_MASS`, kg. -/
def PENDULUM_MASS : ℚ := 2

/-- `PENDULUM_LENGTH`, m. -/
def PENDULUM_LENGTH : ℚ := 0.3

/-- `calculateLoadTorque(angle_deg)` (lines 105-111) over the real numbers, with
`M_PI` read as `π` and `sin` as the real sine; the decimal literals `9.81` and
`180.0` denote their decimal values. -/
noncomputable def calculateLoadTorque (angle_deg : ℝ) : ℝ :=
  let angle_rad := angle_deg * Real.pi / 180
  (PENDULUM_MASS : ℝ) * 9.81 * (PENDULUM_LENGTH : ℝ) * Real.sin angle_rad

/-! ## Theorems: motion profile -/

/-- C1: the no-overshoot property fails on the downward segment that the control
loop runs. For `start = 90`, `end = 0`, `total = 3` and `elapsed = 1/4` (inside
`[0, total]`) the returned position is `735/8 = 91.875`, above
`max start end = 90`: the acceleration branch adds `0.5 * ACCELERATION * t * t`
to `start_pos` whatever the sign of `distance`. -/
theorem C1_downward_segment_overshoots (self : PendulumController) :
    (generateMotionProfile self 90 0 (1/4) 3).1 = 735 / 8 ∧
    ¬ (min (90 : ℚ) 0 ≤ (generateMotionProfile self 90 0 (1/4) 3).1 ∧
        (generateMotionProfile self 90 0 (1/4) 3).1 ≤ max (90 : ℚ) 0) := by
  have h : (generateMotionProfile self 90 0 (1/4) 3).1 = 735 / 8 := by
    simp only [generateMotionProfile, profileSample, MAX_VELOCITY, ACCELERATION]
    norm_num
  refine ⟨h, ?_⟩
  rw [h]
  norm_num

/-- C2: monotonic travel fails on the downward segment that the control loop
runs. With `start = 90`, `end = 0`, `total = 3` (so `end ≤ start`) and
`e1 = 0 ≤ e2 = 1/4 ≤ total`, the position goes from `90` up to `735/8`, so
`position e1 ≥ position e2` does not hold. -/
theorem C2_downward_segment_not_monotone (self : PendulumController) :
    (generateMotionProfile self 90 0 0 3).1 = 90 ∧
    (generateMotionProfile self 90 0 (1/4) 3).1 = 735 / 8 ∧
    ¬ ((generateMotionProfile self 90 0 0 3).1 ≥ (generateMotionProfile self 90 0 (1/4) 3).1) := by
  have h0 : (generateMotionProfile self 90 0 0 3).1 = 90 := by
    simp only [generateMotionProfile, profileSample, MAX_VELOCITY, ACCELERATION]
    norm_num
  have h1 : (generateMotionProfile self 90 0 (1/4) 3).1 = 735 / 8 := by
    simp only [generateMotionProfile, profileSample, MAX_VELOCITY, ACCELERATION]
    norm_num
  refine ⟨h0, h1, ?_⟩
  rw [h0, h1]
  norm_num

/-- C3: start boundary. For every `start`, `end` and every `total ≥ 0`, a call
with `elapsed = 0` returns `position = start` and stores velocity `0`, for
either direction of travel. -/
theorem C3_start_boundary (self : PendulumController) (start_pos end_pos total_time : ℚ)
    (htotal : 0 ≤ total_time) :
    (generateMotionProfile self start_pos end_pos 0 total_time).1 = start_pos ∧
    (generateMotionProfile self start_pos end_pos 0 total_time).2.current_velocity_ = 0 := by
  simp only [generateMotionProfile, profileSample, MAX_VELOCITY, ACCELERATION]
  constructor <;> split_ifs <;> norm_num at * <;> linarith

theorem C3_start_boundary_witness :
    (0 : ℚ) ≤ 3 ∧
    (generateMotionProfile (PendulumController.construct 0) 90 0 0 3).1 = 90 ∧
    (generateMotionProfile (PendulumController.construct 0) 90 0 0 3).2.current_velocity_ = 0 :=
  ⟨by norm_num, C3_start_boundary (PendulumController.construct 0) 90 0 3 (by norm_num)⟩

/-- C4, as stated, is false at `total = 0`: with `start = 0`, `end = 90` and
`elapsed = total = 0` the acceleration branch is taken (`0 ≤ total / 2`) and the
returned position is `start = 0`, not `end = 90`. -/
theorem C4_end_boundary_fails_at_zero_total :
    (0 : ℚ) ≤ 0 ∧ (generateMotionProfile (PendulumController.construct 0) 0 90 0 0).1 ≠ 90 := by
  simp only [generateMotionProfile, profileSample, MAX_VELOCITY, ACCELERATION]
  norm_num

/-- C4 (amended): end boundary. For every `start`, `end` and every `total > 0`
(trapezoidal or triangular regime), a call with `elapsed = total` returns
`position = end`. -/
theorem C4_end_boundary (self : PendulumController) (start_pos end_pos total_time : ℚ)
    (htotal : 0 < total_time) :
    (generateMotionProfile self start_pos end_pos total_time total_time).1 = end_pos := by
  simp only [generateMotionProfile, profileSample, MAX_VELOCITY, ACCELERATION]
  split_ifs <;> norm_num at * <;> linarith

theorem C4_end_boundary_witness :
    (0 : ℚ) < 1 / 2 ∧
    (generateMotionProfile (PendulumController.construct 0) 0 90 (1/2) (1/2)).1 = 90 :=
  ⟨by norm_num, C4_end_boundary (PendulumController.construct 0) 0 90 (1/2) (by norm_num)⟩

/-- C5, as stated, is false on a downward segment: with `start = 90`, `end = 0`,
`total = 3` and `elapsed = 3 ≥ total` the stored velocity is `-5`, not `+5`
(the sign flip of line 155 runs after the endpoint branch). -/
theorem C5_terminal_velocity_is_signed :
    (0 : ℚ) < 3 ∧ (3 : ℚ) ≥ 3 ∧
    (generateMotionProfile (PendulumController.construct 0) 90 0 3 3).2.current_velocity_ = -5 ∧
    (generateMotionProfile (PendulumController.construct 0) 90 0 3 3).2.current_velocity_ ≠ 5 := by
  simp only [generateMotionProfile, profileSample, MAX_VELOCITY, ACCELERATION]
  norm_num

/-- C5 (amended): terminal velocity floor. For every `start`, `end`, every
`total > 0` and every `elapsed ≥ total`, the stored velocity is `+5` when
`end ≥ start` and `-5` when `end < start`. -/
theorem C5_terminal_velocity (self : PendulumController)
    (start_pos end_pos current_time total_time : ℚ)
    (htotal : 0 < total_time) (helapsed : total_time ≤ current_time) :
    (generateMotionProfile self start_pos end_pos current_time total_time).2.current_velocity_
      = if end_pos < start_pos then -5 else 5 := by
  simp only [generateMotionProfile, profileSample, MAX_VELOCITY, ACCELERATION]
  split_ifs <;> norm_num at * <;> linarith

theorem C5_terminal_velocity_witness :
    (0 : ℚ) < 3 ∧ (3 : ℚ) ≤ 4 ∧
    (generateMotionProfile (PendulumController.construct 0) 0 90 4 3).2.current_velocity_
      = if (90 : ℚ) < 0 then -5 else 5 :=
  ⟨by norm_num, by norm_num,
    C5_terminal_velocity (PendulumController.construct 0) 0 90 4 3 (by norm_num) (by norm_num)⟩

/-- The velocity of the selected branch before the sign flip of line 155 is
non-negative once `elapsed ≥ 0`; stated on the stored (signed) velocity. -/
theorem profileSample_velocity_sign (start_pos end_pos current_time total_time : ℚ)
    (helapsed : 0 ≤ current_time) :
    (end_pos < start_pos →
      (profileSample start_pos end_pos current_time total_time).velocity ≤ 0) ∧
    (start_pos ≤ end_pos →
      0 ≤ (profileSample start_pos end_pos current_time total_time).velocity) := by
  simp only [profileSample, MAX_VELOCITY, ACCELERATION]
  constructor <;> intro h <;> split_ifs <;> norm_num at * <;> linarith

/-- C6: direction-aware velocity. For every `elapsed ≥ 0`, every `total` (in
particular every `total ≥ 0`) and every `start ≠ end`, the velocity stored for
`(start, end)` is the negation of the velocity stored for the swapped endpoints
`(end, start)`; it is `≤ 0` when `end < start` and `≥ 0` when `end ≥ start`, in
every branch including the endpoint branch. -/
theorem C6_direction_aware_velocity (self other : PendulumController)
    (start_pos end_pos current_time total_time : ℚ)
    (helapsed : 0 ≤ current_time) (hne : start_pos ≠ end_pos) :
    (generateMotionProfile self start_pos end_pos current_time total_time).2.current_velocity_
      = -(generateMotionProfile other end_pos start_pos current_time total_time).2.current_velocity_ ∧
    (end_pos < start_pos →
      (generateMotionProfile self start_pos end_pos current_time total_time).2.current_velocity_ ≤ 0) ∧
    (start_pos ≤ end_pos →
      0 ≤ (generateMotionProfile self start_pos end_pos current_time total_time).2.current_velocity_) := by
  refine ⟨?_, (profileSample_velocity_sign start_pos end_pos current_time total_time helapsed).1,
    (profileSample_velocity_sign start_pos end_pos current_time total_time helapsed).2⟩
  have hlt : start_pos < end_pos ∨ end_pos < start_pos := lt_or_gt_of_ne hne
  simp only [generateMotionProfile, profileSample, MAX_VELOCITY, ACCELERATION]
  rcases hlt with h | h
  · have h1 : ¬ (end_pos - start_pos < 0) := by linarith
    have h2 : start_pos - end_pos < 0 := by linarith
    simp only [h1, h2, if_true, if_false]
    split_ifs <;> simp
  · have h1 : end_pos - start_pos < 0 := by linarith
    have h2 : ¬ (start_pos - end_pos < 0) := by linarith
    simp only [h1, h2, if_true, if_false]
    split_ifs <;> simp

theorem C6_direction_aware_velocity_witness :
    (0 : ℚ) ≤ 1 ∧ (90 : ℚ) ≠ 0 ∧
    ((generateMotionProfile (PendulumController.construct 0) 90 0 1 3).2.current_velocity_
      = -(generateMotionProfile (PendulumController.construct 0) 0 90 1 3).2.current_velocity_ ∧
    ((0 : ℚ) < 90 →
      (generateMotionProfile (PendulumController.construct 0) 90 0 1 3).2.current_velocity_ ≤ 0) ∧
    ((90 : ℚ) ≤ 0 →
      0 ≤ (generateMotionProfile (PendulumController.construct 0) 90 0 1 3).2.current_velocity_)) :=
  ⟨by norm_num, by norm_num,
    C6_direction_aware_velocity (PendulumController.construct 0) (PendulumController.construct 0)
      90 0 1 3 (by norm_num) (by norm_num)⟩

/-- C7: the triangular fallback skips the constant phase. For every `start`,
`end`, every `total < 2 * MAX_VELOCITY / ACCELERATION` (= 1 s; in particular
every `0 ≤ total < 1`) and every `elapsed ≥ 0`, the stored velocity differs from
`MAX_VELOCITY` and the branch taken is not the constant-velocity branch. -/
theorem C7_triangular_skips_constant_phase (self : PendulumController)
    (start_pos end_pos current_time total_time : ℚ)
    (hshort : total_time < 2 * MAX_VELOCITY / ACCELERATION)
    (helapsed : 0 ≤ current_time) :
    (generateMotionProfile self start_pos end_pos current_time total_time).2.current_velocity_
      ≠ MAX_VELOCITY ∧
    (profileSample start_pos end_pos current_time total_time).phase ≠ ProfilePhase.constant := by
  simp only [generateMotionProfile, profileSample, MAX_VELOCITY, ACCELERATION] at hshort ⊢
  norm_num at hshort
  constructor
  · split_ifs <;> norm_num at * <;> linarith
  · split_ifs <;> first | (exfalso; norm_num at *; linarith) | (intro h; cases h)

theorem C7_triangular_skips_constant_phase_witness :
    (1 / 2 : ℚ) < 2 * MAX_VELOCITY / ACCELERATION ∧ (0 : ℚ) ≤ 1 / 4 ∧
    ((generateMotionProfile (PendulumController.construct 0) 0 90 (1/4) (1/2)).2.current_velocity_
      ≠ MAX_VELOCITY ∧
    (profileSample 0 90 (1/4) (1/2)).phase ≠ ProfilePhase.constant) :=
  ⟨by norm_num [MAX_VELOCITY, ACCELERATION], by norm_num,
    C7_triangular_skips_constant_phase (PendulumController.construct 0) 0 90 (1/4) (1/2)
      (by norm_num [MAX_VELOCITY, ACCELERATION]) (by norm_num)⟩

/-! ## Theorems: double-precision rounding -/

/-- An integer rounds to itself. -/
theorem roundHalfEven_intCast (n : ℤ) : roundHalfEven (n : ℚ) = n := by
  simp [roundHalfEven]

/-- Rounding to the nearest integer moves a value by at most one half. -/
theorem roundHalfEven_error (q : ℚ) : |(roundHalfEven q : ℚ) - q| ≤ 1 / 2 := by
  have h1 := Int.floor_le q
  have h2 := Int.lt_floor_add_one q
  rw [abs_le]
  unfold roundHalfEven
  split_ifs <;> push_cast <;> constructor <;> linarith

/-- Rounding to the nearest integer is monotone. -/
theorem roundHalfEven_mono {a b : ℚ} (h : a ≤ b) : roundHalfEven a ≤ roundHalfEven b := by
  have ha1 := Int.floor_le a
  have ha2 := Int.lt_floor_add_one a
  have hb1 := Int.floor_le b
  have hb2 := Int.lt_floor_add_one b
  have hfl : ⌊a⌋ ≤ ⌊b⌋ := Int.floor_mono h
  rcases hfl.lt_or_eq with hlt | heq
  · have hA : roundHalfEven a ≤ ⌊a⌋ + 1 := by
      unfold roundHalfEven; split_ifs <;> omega
    have hB : ⌊b⌋ ≤ roundHalfEven b := by
      unfold roundHalfEven; split_ifs <;> omega
    omega
  · unfold roundHalfEven
    rw [heq] at ha1 ha2 ⊢
    split_ifs <;> first | omega | (exfalso; linarith)

/-- A value strictly within one half of an integer rounds to it. -/
theorem roundHalfEven_eq_of_near {q : ℚ} {m : ℤ} (h : |q - m| < 1 / 2) : roundHalfEven q = m := by
  rw [abs_lt] at h
  rcases le_or_lt (m : ℚ) q with hle | hlt
  · have hf : ⌊q⌋ = m := Int.floor_eq_iff.mpr ⟨hle, by linarith⟩
    unfold roundHalfEven
    rw [hf, if_pos (by linarith)]
  · have hf : ⌊q⌋ = m - 1 := Int.floor_eq_iff.mpr ⟨by push_cast; linarith, by push_cast; linarith⟩
    unfold roundHalfEven
    rw [hf, if_neg (by push_cast; linarith), if_pos (by push_cast; linarith)]
    ring


/-- Powers of two are positive. -/
theorem two_zpow_pos (k : ℤ) : (0 : ℚ) < 2 ^ k := zpow_pos (by norm_num) k

/-- A power of two as a 53-bit significand bound times the unit in the last place. -/
theorem two_zpow_split (e : ℤ) :
    (2 : ℚ) ^ e = 2 ^ (52 : ℕ) * 2 ^ (e - 52) ∧ (2 : ℚ) ^ (e + 1) = 2 ^ (53 : ℕ) * 2 ^ (e - 52) := by
  constructor
  · rw [← zpow_natCast, ← zpow_add₀ (by norm_num : (2 : ℚ) ≠ 0)]
    congr 1
    push_cast
    ring
  · rw [← zpow_natCast, ← zpow_add₀ (by norm_num : (2 : ℚ) ≠ 0)]
    congr 1
    push_cast
    ring

/-- A positive rational lies in the binade given by its binary logarithm. -/
theorem log_two_bounds {x : ℚ} (hx : 0 < x) :
    (2 : ℚ) ^ Int.log 2 x ≤ x ∧ x < (2 : ℚ) ^ (Int.log 2 x + 1) := by
  have h1 := Int.zpow_log_le_self (by norm_num : 1 < 2) hx
  have h2 := Int.lt_zpow_succ_log_self (by norm_num : 1 < 2) x
  exact ⟨by simpa using h1, by simpa using h2⟩

/-- The binary logarithm of a value in the binade `[2^e, 2^(e+1))` is `e`. -/
theorem log_two_eq {x : ℚ} (hx : 0 < x) {e : ℤ} (h1 : (2 : ℚ) ^ e ≤ x) (h2 : x < (2 : ℚ) ^ (e + 1)) :
    Int.log 2 x = e := by
  have a : e ≤ Int.log 2 x :=
    (Int.zpow_le_iff_le_log (by norm_num : 1 < 2) hx).mp (by simpa using h1)
  have b : Int.log 2 x < e + 1 :=
    (Int.lt_zpow_iff_log_lt (by norm_num : 1 < 2) hx).mp (by simpa using h2)
  omega


/-- Zero rounds to zero. -/
theorem roundMagnitude_zero : roundMagnitude 0 = 0 := by
  simp [roundMagnitude]

/-- The rounded magnitude is an integer significand in `[2^52, 2^53]` times the unit in the last place, within half a unit of the value. -/
theorem roundMagnitude_spec {x : ℚ} (hx : 0 < x) :
    ∃ m : ℤ, (2 : ℤ) ^ 52 ≤ m ∧ m ≤ (2 : ℤ) ^ 53 ∧
      roundMagnitude x = m * 2 ^ (Int.log 2 x - 52) ∧
      |(m : ℚ) - x / 2 ^ (Int.log 2 x - 52)| ≤ 1 / 2 := by
  have hP := two_zpow_pos (Int.log 2 x - 52)
  obtain ⟨h1, h2⟩ := log_two_bounds hx
  obtain ⟨s1, s2⟩ := two_zpow_split (Int.log 2 x)
  have q1 : (((2 : ℤ) ^ 52 : ℤ) : ℚ) ≤ x / 2 ^ (Int.log 2 x - 52) := by
    rw [le_div_iff₀ hP]
    rw [s1] at h1
    push_cast
    norm_num at h1 ⊢
    linarith
  have q2 : x / 2 ^ (Int.log 2 x - 52) ≤ (((2 : ℤ) ^ 53 : ℤ) : ℚ) := by
    rw [div_le_iff₀ hP]
    rw [s2] at h2
    push_cast
    norm_num at h2 ⊢
    linarith
  refine ⟨roundHalfEven (x / 2 ^ (Int.log 2 x - 52)), ?_, ?_, ?_, roundHalfEven_error _⟩
  · simpa only [roundHalfEven_intCast] using roundHalfEven_mono q1
  · simpa only [roundHalfEven_intCast] using roundHalfEven_mono q2
  · simp [roundMagnitude, hx.ne']

/-- Evaluation of `roundMagnitude` from the binade and the rounded significand. -/
theorem roundMagnitude_eval {x : ℚ} (hx : 0 < x) (e m : ℤ) (h1 : (2 : ℚ) ^ e ≤ x)
    (h2 : x < (2 : ℚ) ^ (e + 1)) (hm : roundHalfEven (x / 2 ^ (e - 52)) = m) :
    roundMagnitude x = m * 2 ^ (e - 52) := by
  have he := log_two_eq hx h1 h2
  simp only [roundMagnitude, hx.ne', if_false, he, hm]

/-- Rounding stays within the closed binade of the value. -/
theorem roundMagnitude_bounds {x : ℚ} (hx : 0 < x) :
    (2 : ℚ) ^ Int.log 2 x ≤ roundMagnitude x ∧ roundMagnitude x ≤ (2 : ℚ) ^ (Int.log 2 x + 1) := by
  obtain ⟨m, m1, m2, hrm, _⟩ := roundMagnitude_spec hx
  have hP := two_zpow_pos (Int.log 2 x - 52)
  obtain ⟨s1, s2⟩ := two_zpow_split (Int.log 2 x)
  have c1 : ((2 : ℚ) ^ (52 : ℕ)) ≤ m := by exact_mod_cast m1
  have c2 : (m : ℚ) ≤ (2 : ℚ) ^ (53 : ℕ) := by exact_mod_cast m2
  rw [hrm, s1, s2]
  exact ⟨mul_le_mul_of_nonneg_right c1 hP.le, mul_le_mul_of_nonneg_right c2 hP.le⟩

/-- A positive value rounds to a positive value. -/
theorem roundMagnitude_pos {x : ℚ} (hx : 0 < x) : 0 < roundMagnitude x :=
  lt_of_lt_of_le (two_zpow_pos _) (roundMagnitude_bounds hx).1

/-- A non-negative value rounds to a non-negative value. -/
theorem roundMagnitude_nonneg {x : ℚ} (hx : 0 ≤ x) : 0 ≤ roundMagnitude x := by
  rcases hx.lt_or_eq with h | h
  · exact (roundMagnitude_pos h).le
  · rw [← h, roundMagnitude_zero]

/-- Relative rounding error of at most `2^-53`. -/
theorem roundMagnitude_error {x : ℚ} (hx : 0 ≤ x) :
    |roundMagnitude x - x| ≤ x / 2 ^ (53 : ℕ) := by
  rcases hx.lt_or_eq with h | h
  · obtain ⟨m, _, _, hrm, herr⟩ := roundMagnitude_spec h
    have hP := two_zpow_pos (Int.log 2 x - 52)
    obtain ⟨h1, _⟩ := log_two_bounds h
    obtain ⟨s1, _⟩ := two_zpow_split (Int.log 2 x)
    have hx' : x = x / 2 ^ (Int.log 2 x - 52) * 2 ^ (Int.log 2 x - 52) := by
      field_simp
    have hdiff : roundMagnitude x - x
        = ((m : ℚ) - x / 2 ^ (Int.log 2 x - 52)) * 2 ^ (Int.log 2 x - 52) := by
      rw [hrm, sub_mul, ← hx']
    rw [hdiff, abs_mul, abs_of_pos hP]
    have hb : |(m : ℚ) - x / 2 ^ (Int.log 2 x - 52)| * 2 ^ (Int.log 2 x - 52)
        ≤ 1 / 2 * 2 ^ (Int.log 2 x - 52) := mul_le_mul_of_nonneg_right herr hP.le
    rw [s1] at h1
    have : (1 : ℚ) / 2 * 2 ^ (Int.log 2 x - 52) ≤ x / 2 ^ (53 : ℕ) := by
      rw [le_div_iff₀ (by norm_num)]
      norm_num at h1 ⊢
      linarith
    exact hb.trans this
  · rw [← h, roundMagnitude_zero]
    norm_num

/-- On non-negative values `roundDouble` is `roundMagnitude`. -/
theorem roundDouble_of_nonneg {x : ℚ} (hx : 0 ≤ x) : roundDouble x = roundMagnitude x := by
  simp [roundDouble, not_lt.mpr hx]

/-- On negative values `roundDouble` rounds the magnitude and restores the sign. -/
theorem roundDouble_of_neg {x : ℚ} (hx : x < 0) : roundDouble x = -roundMagnitude (-x) := by
  simp [roundDouble, hx]

/-- A non-negative value rounds to a non-negative double. -/
theorem roundDouble_nonneg {x : ℚ} (hx : 0 ≤ x) : 0 ≤ roundDouble x := by
  rw [roundDouble_of_nonneg hx]
  exact roundMagnitude_nonneg hx

/-- Relative rounding error of at most `2^-53`. -/
theorem roundDouble_error (x : ℚ) : |roundDouble x - x| ≤ |x| / 2 ^ (53 : ℕ) := by
  rcases le_or_lt 0 x with h | h
  · rw [roundDouble_of_nonneg h, abs_of_nonneg h]
    exact roundMagnitude_error h
  · have hn : (0 : ℚ) ≤ -x := by linarith
    rw [roundDouble_of_neg h, abs_of_neg h]
    have := roundMagnitude_error hn
    rwa [show -roundMagnitude (-x) - x = -(roundMagnitude (-x) - -x) by ring, abs_neg]

/-- Evaluation of `roundDouble` on a positive value from its binade and rounded significand. -/
theorem roundDouble_eval {x : ℚ} (hx : 0 < x) (e m : ℤ) (h1 : (2 : ℚ) ^ e ≤ x)
    (h2 : x < (2 : ℚ) ^ (e + 1)) (hm : roundHalfEven (x / 2 ^ (e - 52)) = m) :
    roundDouble x = m * 2 ^ (e - 52) := by
  rw [roundDouble_of_nonneg hx.le]
  exact roundMagnitude_eval hx e m h1 h2 hm

/-! ## Theorems: simulated actuator -/

/-- The position written by one rounded actuator step. -/
theorem sendMotorCommandRounded_position (self : PendulumController)
    (position velocity now : ℚ) :
    (sendMotorCommandRounded self position velocity now).2.current_position_ =
      if |roundDouble (position - self.current_position_)|
          > roundDouble (MAX_VELOCITY * roundDouble (now - self.last_command_time)) then
        roundDouble (self.current_position_ +
          (if roundDouble (position - self.current_position_) > 0
            then roundDouble (MAX_VELOCITY * roundDouble (now - self.last_command_time))
            else -roundDouble (MAX_VELOCITY * roundDouble (now - self.last_command_time))))
      else position := rfl

/-- C8, as stated, is false in double arithmetic. With the previous position
the double `15.3`, the command `90` and `dt` the double `0.01` (previous command
at clock 0, this one at 0.01 s), the step is rate-limited, the new position is
the double `15.600000000000001`, and the move exceeds `MAX_VELOCITY * dt`: the
sum `current_position_ + max_step` is rounded upward. -/
theorem C8_rate_limit_exceeded_by_rounding :
    roundDouble (153 / 10) = 8613134287346074 / 2 ^ 49 ∧
    roundDouble (1 / 100 - 0) = 5764607523034235 / 2 ^ 59 ∧
    (sendMotorCommandRounded (PendulumController.atPosition (8613134287346074 / 2 ^ 49) 0)
        90 0 (1 / 100)).2.current_position_ = 8782019273372468 / 2 ^ 49 ∧
    ¬ (|(sendMotorCommandRounded (PendulumController.atPosition (8613134287346074 / 2 ^ 49) 0)
          90 0 (1 / 100)).2.current_position_
        - (PendulumController.atPosition (8613134287346074 / 2 ^ 49) 0).current_position_|
      ≤ MAX_VELOCITY * roundDouble (1 / 100 - 0)) := by
  have hp : roundDouble (153 / 10) = 8613134287346074 / 2 ^ 49 := by
    rw [roundDouble_eval (by norm_num) 3 8613134287346074 (by norm_num) (by norm_num)
      (roundHalfEven_eq_of_near (by norm_num [abs_lt]))]
    norm_num
  have hdt : roundDouble (1 / 100 - 0) = 5764607523034235 / 2 ^ 59 := by
    rw [roundDouble_eval (by norm_num) (-7) 5764607523034235 (by norm_num) (by norm_num)
      (roundHalfEven_eq_of_near (by norm_num [abs_lt]))]
    norm_num
  have herr : roundDouble (90 - 8613134287346074 / 2 ^ 49) = 5256545190071501 / 2 ^ 46 := by
    rw [roundDouble_eval (by norm_num) 6 5256545190071501 (by norm_num) (by norm_num)
      (roundHalfEven_eq_of_near (by norm_num [abs_lt]))]
    norm_num
  have hstep : roundDouble (30 * (5764607523034235 / 2 ^ 59)) = 5404319552844595 / 2 ^ 54 := by
    rw [roundDouble_eval (by norm_num) (-2) 5404319552844595 (by norm_num) (by norm_num)
      (roundHalfEven_eq_of_near (by norm_num [abs_lt]))]
    norm_num
  have hnew : roundDouble (8613134287346074 / 2 ^ 49 + 5404319552844595 / 2 ^ 54)
      = 8782019273372468 / 2 ^ 49 := by
    rw [roundDouble_eval (by norm_num) 3 8782019273372468 (by norm_num) (by norm_num)
      (roundHalfEven_eq_of_near (by norm_num [abs_lt]))]
    norm_num
  have hpos : (sendMotorCommandRounded (PendulumController.atPosition (8613134287346074 / 2 ^ 49) 0)
      90 0 (1 / 100)).2.current_position_ = 8782019273372468 / 2 ^ 49 := by
    rw [sendMotorCommandRounded_position]
    simp only [PendulumController.atPosition, PendulumController.construct, MAX_VELOCITY]
    rw [hdt, hstep, herr, if_pos (by norm_num [abs_of_pos]), if_pos (by norm_num), hnew]
  refine ⟨hp, hdt, hpos, ?_⟩
  rw [hpos, hdt]
  simp only [PendulumController.atPosition, PendulumController.construct, MAX_VELOCITY]
  norm_num [abs_of_pos]

/-- C8 (amended): actuator rate limit in double arithmetic. For every previous
position, every commanded position and every `dt ≥ 0` (the time since the
previous command, as a double), one call of `sendMotorCommand` moves the current
position by at most `MAX_VELOCITY * dt` up to rounding:
`|new - previous| ≤ (1 + 2^-51) * (MAX_VELOCITY * dt) + 2^-53 * |previous|`. -/
theorem C8_actuator_rate_limit_rounded (self : PendulumController)
    (position velocity now dt : ℚ)
    (hdt : 0 ≤ dt) (hclock : roundDouble (now - self.last_command_time) = dt) :
    |(sendMotorCommandRounded self position velocity now).2.current_position_
        - self.current_position_|
      ≤ (1 + 1 / 2 ^ 51) * (MAX_VELOCITY * dt) + |self.current_position_| / 2 ^ 53 := by
  rw [sendMotorCommandRounded_position, hclock]
  simp only [MAX_VELOCITY]
  have hD : (0 : ℚ) ≤ 30 * dt := by linarith
  have hs0 : 0 ≤ roundDouble (30 * dt) := roundDouble_nonneg hD
  have hse := roundDouble_error (30 * dt)
  rw [abs_of_nonneg hD, abs_le] at hse
  have hp0 := abs_nonneg self.current_position_
  split_ifs with hbig hpos
  · have he := roundDouble_error (self.current_position_ + roundDouble (30 * dt))
    have hps : |self.current_position_ + roundDouble (30 * dt)|
        ≤ |self.current_position_| + roundDouble (30 * dt) :=
      (abs_add _ _).trans (by rw [abs_of_nonneg hs0])
    rw [abs_le] at he ⊢
    norm_num at he hse ⊢
    constructor <;> linarith
  · have he := roundDouble_error (self.current_position_ + -roundDouble (30 * dt))
    have hps : |self.current_position_ + -roundDouble (30 * dt)|
        ≤ |self.current_position_| + roundDouble (30 * dt) :=
      (abs_add _ _).trans (by rw [abs_neg, abs_of_nonneg hs0])
    rw [abs_le] at he ⊢
    norm_num at he hse ⊢
    constructor <;> linarith
  · have he := roundDouble_error (position - self.current_position_)
    have hle := abs_le.mp (not_lt.mp hbig)
    rw [abs_le] at he
    norm_num at he hse ⊢
    rcases abs_cases (position - self.current_position_) with ⟨hx, _⟩ | ⟨hx, _⟩ <;>
      rw [hx] at he ⊢ <;> linarith

theorem C8_actuator_rate_limit_rounded_witness :
    (0 : ℚ) ≤ 1 / 2 ∧
    roundDouble (1 / 2 - (PendulumController.atPosition 0 0).last_command_time) = 1 / 2 ∧
    |(sendMotorCommandRounded (PendulumController.atPosition 0 0) 90 0 (1 / 2)).2.current_position_
        - (PendulumController.atPosition 0 0).current_position_|
      ≤ (1 + 1 / 2 ^ 51) * (MAX_VELOCITY * (1 / 2))
        + |(PendulumController.atPosition 0 0).current_position_| / 2 ^ 53 :=
  have hclock : roundDouble (1 / 2 - (PendulumController.atPosition 0 0).last_command_time)
      = 1 / 2 := by
    simp only [PendulumController.atPosition, PendulumController.construct]
    rw [roundDouble_eval (by norm_num) (-1) 4503599627370496 (by norm_num) (by norm_num)
      (roundHalfEven_eq_of_near (by norm_num [abs_lt]))]
    norm_num
  ⟨by norm_num, hclock,
    C8_actuator_rate_limit_rounded (PendulumController.atPosition 0 0) 90 0 (1 / 2) (1 / 2)
      (by norm_num) hclock⟩

/-- C9: actuator with zero elapsed time. For every previous position and every
commanded position (equal to it or not), a call of `sendMotorCommand` with
`dt = 0` leaves the current position equal to the previous position. -/
theorem C9_actuator_zero_dt (self : PendulumController) (position velocity now : ℚ)
    (hclock : now - self.last_command_time = 0) :
    (sendMotorCommand self position velocity now).2.current_position_ = self.current_position_ := by
  simp only [sendMotorCommand, MAX_VELOCITY, hclock, mul_zero, neg_zero, ite_self, add_zero]
  split_ifs with hbig
  · rfl
  · have h0 : |position - self.current_position_| = 0 :=
      le_antisymm (not_lt.mp hbig) (abs_nonneg _)
    linarith [abs_eq_zero.mp h0]

theorem C9_actuator_zero_dt_witness :
    (7 : ℚ) - (PendulumController.construct 7).last_command_time = 0 ∧
    (sendMotorCommand (PendulumController.construct 7) 45 0 7).2.current_position_
      = (PendulumController.construct 7).current_position_ :=
  ⟨by norm_num [PendulumController.construct],
    C9_actuator_zero_dt (PendulumController.construct 7) 45 0 7
      (by norm_num [PendulumController.construct])⟩

/-- Direction after one iteration of the loop body. -/
theorem loopBody_direction (self : CyclingState) (tick : Tick) :
    (loopBody self tick).controller.direction_up_ =
      if tick.now - self.cycle_start_time ≤ motion_time then self.controller.direction_up_
      else !self.controller.direction_up_ := by
  simp only [loopBody, logCycleData, sendMotorCommand, generateMotionProfile]
  split_ifs <;> rfl

/-- Cycle counter after one iteration of the loop body. -/
theorem loopBody_cycle (self : CyclingState) (tick : Tick) :
    (loopBody self tick).controller.current_cycle_ =
      if tick.now - self.cycle_start_time ≤ motion_time then self.controller.current_cycle_
      else if self.controller.direction_up_ then self.controller.current_cycle_ + 1
      else self.controller.current_cycle_ := by
  simp only [loopBody, logCycleData, sendMotorCommand, generateMotionProfile]
  split_ifs <;> simp_all

/-- Segment start time after one iteration of the loop body. -/
theorem loopBody_cycle_start (self : CyclingState) (tick : Tick) :
    (loopBody self tick).cycle_start_time =
      if tick.now - self.cycle_start_time ≤ motion_time then self.cycle_start_time
      else tick.now := by
  simp only [loopBody, logCycleData]
  split_ifs <;> rfl

/-- Status labels of the log after one iteration of the loop body: a motion
iteration appends the label of the current direction, a reversal appends
nothing. -/
theorem loopBody_statuses (self : CyclingState) (tick : Tick) :
    (loopBody self tick).cycle_log_.map CycleData.status =
      if tick.now - self.cycle_start_time ≤ motion_time then
        self.cycle_log_.map CycleData.status ++
          [if self.controller.direction_up_ then "Moving_Up" else "Moving_Down"]
      else self.cycle_log_.map CycleData.status := by
  simp only [loopBody, logCycleData, sendMotorCommand, generateMotionProfile]
  split_ifs <;> simp

/-- On a direction reversal the loop body raises the cycle counter by one when
the segment that just ended was a `MovingUp` segment and leaves it unchanged
when it was a `MovingDown` segment: line 265 tests `direction_up_` after the
flip of line 262. -/
theorem loopBody_cycle_on_reversal (self : CyclingState) (tick : Tick)
    (hrev : (loopBody self tick).controller.direction_up_ ≠ self.controller.direction_up_) :
    (self.controller.direction_up_ = true →
      (loopBody self tick).controller.current_cycle_ = self.controller.current_cycle_ + 1) ∧
    (self.controller.direction_up_ = false →
      (loopBody self tick).controller.current_cycle_ = self.controller.current_cycle_) := by
  rw [loopBody_direction] at hrev
  rw [loopBody_cycle]
  split_ifs at hrev ⊢ with h hd
  · exact absurd rfl hrev
  · exact ⟨fun _ => rfl, fun hf => absurd hd (by simp [hf])⟩
  · exact ⟨fun ht => absurd ht hd, fun _ => rfl⟩

/-- C12: the code counts a cycle at the up endpoint, not at the down endpoint.
From the initial state (direction up, counter 0) the iteration 4 s after the
segment start is the reversal that ends the first `MovingUp` segment, and it
raises the counter from 0 to 1; the next reversal, 4 s later, ends the
`MovingDown` segment and leaves the counter at 1. -/
theorem C12_counter_increments_after_up_segment :
    (CyclingState.initial 0 0 0).controller.direction_up_ = true ∧
    (CyclingState.initial 0 0 0).controller.current_cycle_ = 0 ∧
    (loopBody (CyclingState.initial 0 0 0) (Tick.running 4)).controller.direction_up_ = false ∧
    (loopBody (CyclingState.initial 0 0 0) (Tick.running 4)).controller.current_cycle_ = 1 ∧
    (loopBody (loopBody (CyclingState.initial 0 0 0) (Tick.running 4))
      (Tick.running 8)).controller.direction_up_ = true ∧
    (loopBody (loopBody (CyclingState.initial 0 0 0) (Tick.running 4))
      (Tick.running 8)).controller.current_cycle_ = 1 := by
  simp only [loopBody_direction, loopBody_cycle, loopBody_cycle_start]
  norm_num [CyclingState.initial, PendulumController.construct, Tick.running, motion_time]

/-- C13: direction flips exactly on timeout. For every controller state and
every tick time, one iteration of the loop body changes the direction if and
only if the time elapsed since the segment start is strictly greater than
`motion_time` (3 s); an iteration with `elapsed ≤ 3` keeps the direction, the
segment start time and the cycle counter unchanged. -/
theorem C13_direction_flips_exactly_on_timeout (self : CyclingState) (tick : Tick) :
    ((loopBody self tick).controller.direction_up_ ≠ self.controller.direction_up_
      ↔ tick.now - self.cycle_start_time > 3) ∧
    (tick.now - self.cycle_start_time ≤ 3 →
      (loopBody self tick).controller.direction_up_ = self.controller.direction_up_ ∧
      (loopBody self tick).cycle_start_time = self.cycle_start_time ∧
      (loopBody self tick).controller.current_cycle_ = self.controller.current_cycle_) := by
  rw [loopBody_direction, loopBody_cycle, loopBody_cycle_start]
  simp only [motion_time]
  constructor
  · split_ifs with h
    · exact ⟨fun hne => absurd rfl hne, fun hgt => absurd h (not_le.mpr hgt)⟩
    · exact ⟨fun _ => not_le.mp h, fun _ => by cases self.controller.direction_up_ <;> simp⟩
  · intro h
    simp only [h, if_true, and_self]

theorem C13_direction_flips_exactly_on_timeout_witness :
    (Tick.running 2).now - (CyclingState.initial 0 0 0).cycle_start_time ≤ 3 ∧
    (loopBody (CyclingState.initial 0 0 0) (Tick.running 2)).controller.direction_up_
      = (CyclingState.initial 0 0 0).controller.direction_up_ ∧
    (loopBody (CyclingState.initial 0 0 0) (Tick.running 2)).cycle_start_time
      = (CyclingState.initial 0 0 0).cycle_start_time ∧
    (loopBody (CyclingState.initial 0 0 0) (Tick.running 2)).controller.current_cycle_
      = (CyclingState.initial 0 0 0).controller.current_cycle_ :=
  have h : (Tick.running 2).now - (CyclingState.initial 0 0 0).cycle_start_time ≤ 3 := by
    norm_num [Tick.running, CyclingState.initial]
  ⟨h, (C13_direction_flips_exactly_on_timeout (CyclingState.initial 0 0 0) (Tick.running 2)).2 h⟩

/-- Status labels already in the log stay in the log while the loop runs. -/
theorem whileLoop_statuses_mono (ticks : List Tick) :
    ∀ (self : CyclingState) (x : String), x ∈ self.cycle_log_.map CycleData.status →
      x ∈ (whileLoop self ticks).state.cycle_log_.map CycleData.status := by
  induction ticks with
  | nil => intro self x hx; exact hx
  | cons tick rest ih =>
    intro self x hx
    by_cases hg : loopGuard self tick = true
    · simp only [whileLoop, hg, if_true]
      apply ih
      rw [loopBody_statuses]
      by_cases he : tick.now - self.cycle_start_time ≤ motion_time
      · rw [if_pos he]
        exact List.mem_append_left _ hx
      · rw [if_neg he]
        exact hx
    · simpa only [whileLoop, hg, if_false, LoopResult.state, Bool.false_eq_true] using hx

/-- Without a reversal the cycle counter does not change. -/
theorem whileLoop_cycle_of_no_reversal (ticks : List Tick) :
    ∀ (self : CyclingState), reversalCount self ticks = 0 →
      (whileLoop self ticks).state.controller.current_cycle_ = self.controller.current_cycle_ := by
  induction ticks with
  | nil => intro self _; rfl
  | cons tick rest ih =>
    intro self hrc
    by_cases hg : loopGuard self tick = true
    · simp only [reversalCount, hg, if_true, Nat.add_eq_zero] at hrc
      simp only [whileLoop, hg, if_true]
      by_cases he : tick.now - self.cycle_start_time ≤ motion_time
      · rw [ih _ hrc.2, loopBody_cycle, if_pos he]
      · exfalso
        have hdir := hrc.1
        rw [loopBody_direction, if_neg he] at hdir
        cases hb : self.controller.direction_up_ <;> simp [hb] at hdir
    · simp only [whileLoop, hg, if_false, LoopResult.state, Bool.false_eq_true]

/-- From a state in a `MovingDown` segment that either started at the previous
clock reading or has already logged a `Moving_Down` record: when exactly one
reversal follows, the counter is unchanged and the log has a `Moving_Down`
record. -/
theorem whileLoop_down_segment (ticks : List Tick) :
    ∀ (self : CyclingState) (prev : ℚ),
      List.Chain (fun a b => a ≤ b ∧ b - a < motion_time) prev (ticks.map Tick.now) →
      self.controller.direction_up_ = false →
      (self.cycle_start_time = prev ∨ "Moving_Down" ∈ self.cycle_log_.map CycleData.status) →
      reversalCount self ticks = 1 →
      (whileLoop self ticks).state.controller.current_cycle_ = self.controller.current_cycle_ ∧
      "Moving_Down" ∈ (whileLoop self ticks).state.cycle_log_.map CycleData.status := by
  induction ticks with
  | nil => intro self prev _ _ _ hrc; simp [reversalCount] at hrc
  | cons tick rest ih =>
    intro self prev hchain hdir hseg hrc
    rw [List.map_cons, List.chain_cons] at hchain
    by_cases hg : loopGuard self tick = true
    · simp only [reversalCount, hg, if_true] at hrc
      simp only [whileLoop, hg, if_true]
      have hd := loopBody_direction self tick
      have hc := loopBody_cycle self tick
      have hs := loopBody_cycle_start self tick
      have hl := loopBody_statuses self tick
      by_cases he : tick.now - self.cycle_start_time ≤ motion_time
      · simp only [he, if_true] at hd hc hs hl
        simp only [hd, if_true, zero_add] at hrc
        have hmem : "Moving_Down" ∈ (loopBody self tick).cycle_log_.map CycleData.status := by
          rw [hl, hdir]; simp
        have := ih (loopBody self tick) tick.now hchain.2 (hd.trans hdir) (Or.inr hmem) hrc
        exact ⟨this.1.trans hc, this.2⟩
      · simp only [he, if_false, hdir] at hd hc hs hl
        have hlog : "Moving_Down" ∈ self.cycle_log_.map CycleData.status := by
          rcases hseg with h | h
          · exact absurd (le_of_lt (h ▸ hchain.1.2)) he
          · exact h
        simp only [hd, hdir, Bool.not_false, Bool.true_eq_false, if_false, Bool.false_eq_true] at hc hrc
        have hrc0 : reversalCount (loopBody self tick) rest = 0 := by omega
        refine ⟨(whileLoop_cycle_of_no_reversal rest _ hrc0).trans hc, ?_⟩
        exact whileLoop_statuses_mono rest _ _ (hl ▸ hlog)
    · simp [reversalCount, hg] at hrc

/-- From a state in a `MovingUp` segment that either started at the previous
clock reading or has already logged a `Moving_Up` record: when exactly two
reversals follow, the counter has grown by one and the log has records of both
directions. -/
theorem whileLoop_up_segment (ticks : List Tick) :
    ∀ (self : CyclingState) (prev : ℚ),
      List.Chain (fun a b => a ≤ b ∧ b - a < motion_time) prev (ticks.map Tick.now) →
      self.controller.direction_up_ = true →
      (self.cycle_start_time = prev ∨ "Moving_Up" ∈ self.cycle_log_.map CycleData.status) →
      reversalCount self ticks = 2 →
      (whileLoop self ticks).state.controller.current_cycle_ = self.controller.current_cycle_ + 1 ∧
      "Moving_Up" ∈ (whileLoop self ticks).state.cycle_log_.map CycleData.status ∧
      "Moving_Down" ∈ (whileLoop self ticks).state.cycle_log_.map CycleData.status := by
  induction ticks with
  | nil => intro self prev _ _ _ hrc; simp [reversalCount] at hrc
  | cons tick rest ih =>
    intro self prev hchain hdir hseg hrc
    rw [List.map_cons, List.chain_cons] at hchain
    by_cases hg : loopGuard self tick = true
    · simp only [reversalCount, hg, if_true] at hrc
      simp only [whileLoop, hg, if_true]
      have hd := loopBody_direction self tick
      have hc := loopBody_cycle self tick
      have hs := loopBody_cycle_start self tick
      have hl := loopBody_statuses self tick
      by_cases he : tick.now - self.cycle_start_time ≤ motion_time
      · simp only [he, if_true] at hd hc hs hl
        simp only [hd, if_true, zero_add] at hrc
        have hmem : "Moving_Up" ∈ (loopBody self tick).cycle_log_.map CycleData.status := by
          rw [hl, hdir]; simp
        have := ih (loopBody self tick) tick.now hchain.2 (hd.trans hdir) (Or.inr hmem) hrc
        exact ⟨by rw [this.1, hc], this.2⟩
      · simp only [he, if_false, hdir] at hd hc hs hl
        have hlog : "Moving_Up" ∈ self.cycle_log_.map CycleData.status := by
          rcases hseg with h | h
          · exact absurd (le_of_lt (h ▸ hchain.1.2)) he
          · exact h
        simp only [hd, hdir, Bool.not_true, Bool.false_eq_true, if_false, if_true] at hc hrc
        have hrc1 : reversalCount (loopBody self tick) rest = 1 := by omega
        have := whileLoop_down_segment rest (loopBody self tick) tick.now hchain.2 hd
          (Or.inl hs) hrc1
        exact ⟨by rw [this.1, hc], whileLoop_statuses_mono rest _ _ (hl ▸ hlog), this.2⟩
    · simp [reversalCount, hg] at hrc

/-- C14: end-to-end cycle scenario. The loop (segment duration 3 s,
`MAX_VELOCITY = 30`, `ACCELERATION = 60`) starts from a fresh controller
(position 0, direction up, cycle 0) whose segment start reading is `t0`. For any
non-decreasing sequence of clock readings, starting with `t0`, whose consecutive
readings are less than 3 s apart: once the second direction reversal has
happened (and until a third one), the cycle counter equals 1 and the log holds
at least one `Moving_Up` and at least one `Moving_Down` record. -/
theorem C14_end_to_end_cycle (start_time command_clock t0 : ℚ) (ticks : List Tick)
    (hclock : List.Chain (fun a b => a ≤ b ∧ b - a < 3) t0 (ticks.map Tick.now))
    (hrev : reversalCount (CyclingState.initial start_time command_clock t0) ticks = 2) :
    (whileLoop (CyclingState.initial start_time command_clock t0) ticks).state.controller.current_cycle_
      = 1 ∧
    (∃ r ∈ (whileLoop (CyclingState.initial start_time command_clock t0) ticks).state.cycle_log_,
      r.status = "Moving_Up") ∧
    (∃ r ∈ (whileLoop (CyclingState.initial start_time command_clock t0) ticks).state.cycle_log_,
      r.status = "Moving_Down") := by
  have h := whileLoop_up_segment ticks (CyclingState.initial start_time command_clock t0) t0
    hclock rfl (Or.inl rfl) hrev
  refine ⟨h.1, ?_, ?_⟩
  · obtain ⟨r, hr, hst⟩ := List.mem_map.mp h.2.1
    exact ⟨r, hr, hst⟩
  · obtain ⟨r, hr, hst⟩ := List.mem_map.mp h.2.2
    exact ⟨r, hr, hst⟩

theorem C14_end_to_end_cycle_witness :
    List.Chain (fun a b => a ≤ b ∧ b - a < 3) (0 : ℚ)
      (([2, 4, 6, 8].map Tick.running).map Tick.now) ∧
    reversalCount (CyclingState.initial 0 0 0) ([2, 4, 6, 8].map Tick.running) = 2 ∧
    ((whileLoop (CyclingState.initial 0 0 0)
        ([2, 4, 6, 8].map Tick.running)).state.controller.current_cycle_ = 1 ∧
    (∃ r ∈ (whileLoop (CyclingState.initial 0 0 0) ([2, 4, 6, 8].map Tick.running)).state.cycle_log_,
      r.status = "Moving_Up") ∧
    (∃ r ∈ (whileLoop (CyclingState.initial 0 0 0) ([2, 4, 6, 8].map Tick.running)).state.cycle_log_,
      r.status = "Moving_Down")) :=
  have h1 : List.Chain (fun a b => a ≤ b ∧ b - a < 3) (0 : ℚ)
      (([2, 4, 6, 8].map Tick.running).map Tick.now) := by
    norm_num [Tick.running]
  have h2 : reversalCount (CyclingState.initial 0 0 0) ([2, 4, 6, 8].map Tick.running) = 2 := by
    simp only [List.map, reversalCount, loopGuard, loopBody_direction, loopBody_cycle,
      loopBody_cycle_start, Tick.running, CyclingState.initial, PendulumController.construct,
      MAX_CYCLES, motion_time]
    norm_num
  ⟨h1, h2, C14_end_to_end_cycle 0 0 0 ([2, 4, 6, 8].map Tick.running) h1 h2⟩

/-- A motion or reversal iteration only ever appends `Moving_Up` or
`Moving_Down` records. -/
theorem whileLoop_statuses (ticks : List Tick) :
    ∀ (self : CyclingState) (x : String),
      x ∈ (whileLoop self ticks).state.cycle_log_.map CycleData.status →
      x ∈ self.cycle_log_.map CycleData.status ∨ x = "Moving_Up" ∨ x = "Moving_Down" := by
  induction ticks with
  | nil => intro self x hx; exact Or.inl hx
  | cons tick rest ih =>
    intro self x hx
    by_cases hg : loopGuard self tick = true
    · simp only [whileLoop, hg, if_true] at hx
      rcases ih _ x hx with h | h
      · rw [loopBody_statuses] at h
        by_cases he : tick.now - self.cycle_start_time ≤ motion_time
        · rw [if_pos he, List.mem_append, List.mem_singleton] at h
          rcases h with h | h
          · exact Or.inl h
          · cases hb : self.controller.direction_up_ <;> simp [hb] at h <;> simp [h]
        · rw [if_neg he] at h
          exact Or.inl h
      · exact Or.inr h
    · simp only [whileLoop, hg, if_false, LoopResult.state, Bool.false_eq_true] at hx
      exact Or.inl hx

/-- The loop is left at the first observation whose guard fails. -/
theorem whileLoop_append_exit (pre : List Tick) :
    ∀ (self state : CyclingState) (tick : Tick) (rest : List Tick),
      whileLoop self pre = LoopResult.running state → loopGuard state tick = false →
      whileLoop self (pre ++ tick :: rest) = LoopResult.exited state tick := by
  induction pre with
  | nil =>
    intro self state tick rest hrun hg
    simp only [whileLoop, LoopResult.running.injEq] at hrun
    subst hrun
    simp [whileLoop, hg]
  | cons t pre ih =>
    intro self state tick rest hrun hg
    by_cases hgt : loopGuard self t = true
    · simp only [whileLoop, hgt, if_true] at hrun
      simp only [List.cons_append, whileLoop, hgt, if_true]
      exact ih _ _ _ _ hrun hg
    · simp [whileLoop, hgt] at hrun

/-- Once `g_running` is observed false, the loop has been left. -/
theorem whileLoop_exits_on_stop (ticks : List Tick) :
    ∀ (self : CyclingState), (∃ tick ∈ ticks, tick.g_running = false) →
      ∃ state last, whileLoop self ticks = LoopResult.exited state last := by
  induction ticks with
  | nil => intro self h; simp at h
  | cons t rest ih =>
    intro self h
    by_cases hgt : loopGuard self t = true
    · simp only [whileLoop, hgt, if_true]
      apply ih
      obtain ⟨tick, hmem, hstop⟩ := h
      rcases List.mem_cons.mp hmem with heq | hmem
      · subst heq
        simp [loopGuard, hstop] at hgt
      · exact ⟨tick, hmem, hstop⟩
    · exact ⟨self, t, by simp [whileLoop, hgt]⟩

/-- The log after the safe shutdown is the log before it followed by one
`Shutdown_Safe` record whose target is `MIN_ANGLE`. -/
theorem safeShutdown_log (self : CyclingState) (tick : Tick) :
    ∃ last, (safeShutdown self tick).cycle_log_ = self.cycle_log_ ++ [last] ∧
      last.status = "Shutdown_Safe" ∧ last.target_position = MIN_ANGLE := by
  simp only [safeShutdown, logCycleData, sendMotorCommand]
  exact ⟨_, rfl, rfl, rfl⟩

/-- C15: shutdown record. For a run of `runCyclingTest` on a fresh controller:
whenever the loop is left, the resulting log is the loop's records followed by
one final record with status `Shutdown_Safe` and target position `MIN_ANGLE`;
it is the only `Shutdown_Safe` record, and every earlier record has status
`Moving_Up` or `Moving_Down`. The loop is left, and the run produces this
result, as soon as `g_running` is observed false (at any point of the motion)
or the guard is evaluated with `current_cycle_ ≥ MAX_CYCLES`. -/
theorem C15_shutdown_record (start_time command_clock t0 : ℚ) (ticks : List Tick) :
    (∀ final, runCyclingTest (CyclingState.initial start_time command_clock t0) ticks = some final →
      ∃ earlier last, final.cycle_log_ = earlier ++ [last] ∧
        last.status = "Shutdown_Safe" ∧ last.target_position = MIN_ANGLE ∧
        (∀ r ∈ earlier, r.status = "Moving_Up" ∨ r.status = "Moving_Down") ∧
        (final.cycle_log_.filter (fun r => decide (r.status = "Shutdown_Safe"))).length = 1) ∧
    ((∃ tick ∈ ticks, tick.g_running = false) →
      ∃ final, runCyclingTest (CyclingState.initial start_time command_clock t0) ticks
        = some final) ∧
    (∀ pre state tick rest, ticks = pre ++ tick :: rest →
      whileLoop (CyclingState.initial start_time command_clock t0) pre = LoopResult.running state →
      (tick.g_running = false ∨ MAX_CYCLES ≤ state.controller.current_cycle_) →
      runCyclingTest (CyclingState.initial start_time command_clock t0) ticks
        = some (safeShutdown state tick)) := by
  refine ⟨?_, ?_, ?_⟩
  · intro final hfinal
    unfold runCyclingTest at hfinal
    cases hloop : whileLoop (CyclingState.initial start_time command_clock t0) ticks with
    | running state => rw [hloop] at hfinal; simp at hfinal
    | exited state last =>
      rw [hloop] at hfinal
      simp only [Option.some.injEq] at hfinal
      subst hfinal
      obtain ⟨rec, hlog, hst, htgt⟩ := safeShutdown_log state last
      have hearlier : ∀ r ∈ state.cycle_log_, r.status = "Moving_Up" ∨ r.status = "Moving_Down" := by
        intro r hr
        have hmem : r.status ∈
            (whileLoop (CyclingState.initial start_time command_clock t0) ticks).state.cycle_log_.map
              CycleData.status := by
          rw [hloop]
          exact List.mem_map_of_mem _ hr
        rcases whileLoop_statuses ticks _ _ hmem with h | h
        · simp [CyclingState.initial] at h
        · exact h
      refine ⟨state.cycle_log_, rec, hlog, hst, htgt, hearlier, ?_⟩
      rw [hlog, List.filter_append]
      have hnone : state.cycle_log_.filter (fun r => decide (r.status = "Shutdown_Safe")) = [] := by
        rw [List.filter_eq_nil_iff]
        intro r hr
        rcases hearlier r hr with h | h <;> simp [h]
      simp [hnone, hst]
  · intro hstop
    obtain ⟨state, last, hloop⟩ := whileLoop_exits_on_stop ticks
      (CyclingState.initial start_time command_clock t0) hstop
    exact ⟨safeShutdown state last, by simp [runCyclingTest, hloop]⟩
  · intro pre state tick rest hticks hrun hguard
    have hg : loopGuard state tick = false := by
      rcases hguard with h | h
      · simp [loopGuard, h]
      · simp [loopGuard, not_lt.mpr h]
    subst hticks
    simp [runCyclingTest, whileLoop_append_exit pre _ state tick rest hrun hg]

theorem C15_shutdown_record_witness :
    ∃ final,
      runCyclingTest (CyclingState.initial 0 0 0)
        [Tick.running 1, { g_running := false, now := 2, command_time := 2, log_time := 2 }]
        = some final ∧
      ∃ earlier last, final.cycle_log_ = earlier ++ [last] ∧
        last.status = "Shutdown_Safe" ∧ last.target_position = MIN_ANGLE ∧
        (∀ r ∈ earlier, r.status = "Moving_Up" ∨ r.status = "Moving_Down") ∧
        (final.cycle_log_.filter (fun r => decide (r.status = "Shutdown_Safe"))).length = 1 :=
  have h := C15_shutdown_record 0 0 0
    [Tick.running 1, { g_running := false, now := 2, command_time := 2, log_time := 2 }]
  have hstop : ∃ tick ∈
      [Tick.running 1, ({ g_running := false, now := 2, command_time := 2, log_time := 2 } : Tick)],
      tick.g_running = false := ⟨_, List.mem_cons_of_mem _ (List.mem_singleton.mpr rfl), rfl⟩
  Exists.elim (h.2.1 hstop) (fun final hfinal => ⟨final, hfinal, h.1 final hfinal⟩)

/-- C11: the position does not stay in `[MIN_ANGLE, MAX_ANGLE]`. A fresh
controller (position 0, direction up, cycle 0) enters the loop at clock 0 and is
ticked every 0.5 s; its first motor command is issued at 0.5 s. The loop logs
six `Moving_Up` records, reverses at 3.5 s, and at 4.0 s logs a `Moving_Down`
record whose current position is `195/2 = 97.5`, above `MAX_ANGLE = 90`: the
downward profile commands `90 + 0.5 * 60 * 0.5 ^ 2` and the actuator reaches
it. -/
theorem C11_position_leaves_range :
    List.Chain (fun a b : ℚ => a ≤ b) 0 [1/2, 1, 3/2, 2, 5/2, 3, 7/2, 4] ∧
    ((whileLoop (CyclingState.initial 0 (1/2) 0)
        ([1/2, 1, 3/2, 2, 5/2, 3, 7/2, 4].map Tick.running)).state.cycle_log_.map
      (fun r => (r.status, r.current_position)))
      = [("Moving_Up", 0), ("Moving_Up", 15), ("Moving_Up", 30), ("Moving_Up", 45),
         ("Moving_Up", 60), ("Moving_Up", 75), ("Moving_Down", 195/2)] ∧
    ¬ (MIN_ANGLE ≤ (195 / 2 : ℚ) ∧ (195 / 2 : ℚ) ≤ MAX_ANGLE) := by
  refine ⟨by norm_num, ?_, by norm_num [MIN_ANGLE, MAX_ANGLE]⟩
  simp only [List.map, whileLoop, loopGuard, loopBody, Tick.running, CyclingState.initial,
    PendulumController.construct, generateMotionProfile, profileSample, sendMotorCommand,
    logCycleData, LoopResult.state, MAX_CYCLES, motion_time, MIN_ANGLE, MAX_ANGLE, MAX_VELOCITY,
    ACCELERATION]
  norm_num [lt_abs, LoopResult.state]

/-! ## Theorems: load torque and the configured segment -/

/-- C16: load torque. `calculateLoadTorque angle_deg` equals
`PENDULUM_MASS * 9.81 * PENDULUM_LENGTH * sin (angle_deg * π / 180)`; it is `0`
at 0 degrees and `5.886` at 90 degrees, and on `[0, 90]` it lies in `[0, 5.886]`
and is non-decreasing in the angle. -/
theorem C16_load_torque :
    (∀ angle_deg : ℝ, calculateLoadTorque angle_deg
      = (PENDULUM_MASS : ℝ) * 9.81 * (PENDULUM_LENGTH : ℝ) * Real.sin (angle_deg * Real.pi / 180)) ∧
    calculateLoadTorque 0 = 0 ∧
    calculateLoadTorque 90 = 5.886 ∧
    (∀ angle_deg : ℝ, 0 ≤ angle_deg → angle_deg ≤ 90 →
      0 ≤ calculateLoadTorque angle_deg ∧ calculateLoadTorque angle_deg ≤ 5.886) ∧
    (∀ a b : ℝ, 0 ≤ a → a ≤ b → b ≤ 90 → calculateLoadTorque a ≤ calculateLoadTorque b) := by
  have hpi := Real.pi_pos
  have hrad : ∀ x : ℝ, 0 ≤ x → x ≤ 90 → 0 ≤ x * Real.pi / 180 ∧ x * Real.pi / 180 ≤ Real.pi / 2 := by
    intro x h0 h90
    constructor
    · positivity
    · nlinarith
  refine ⟨fun _ => rfl, ?_, ?_, ?_, ?_⟩
  · simp [calculateLoadTorque]
  · have h : (90 : ℝ) * Real.pi / 180 = Real.pi / 2 := by ring
    simp only [calculateLoadTorque, h, Real.sin_pi_div_two, PENDULUM_MASS, PENDULUM_LENGTH]
    norm_num
  · intro x h0 h90
    obtain ⟨hlo, hhi⟩ := hrad x h0 h90
    have hs0 : 0 ≤ Real.sin (x * Real.pi / 180) :=
      Real.sin_nonneg_of_nonneg_of_le_pi hlo (by linarith)
    have hs1 : Real.sin (x * Real.pi / 180) ≤ 1 := Real.sin_le_one _
    simp only [calculateLoadTorque, PENDULUM_MASS, PENDULUM_LENGTH]
    norm_num
    constructor <;> nlinarith
  · intro a b h0 hab h90
    obtain ⟨hlo, _⟩ := hrad a h0 (hab.trans h90)
    obtain ⟨_, hhi⟩ := hrad b (h0.trans hab) h90
    have hmono : Real.sin (a * Real.pi / 180) ≤ Real.sin (b * Real.pi / 180) :=
      Real.sin_le_sin_of_le_of_le_pi_div_two (by linarith) hhi (by nlinarith)
    simp only [calculateLoadTorque, PENDULUM_MASS, PENDULUM_LENGTH]
    norm_num
    nlinarith

theorem C16_load_torque_witness :
    (0 : ℝ) ≤ 30 ∧ (30 : ℝ) ≤ 60 ∧ (60 : ℝ) ≤ 90 ∧
    calculateLoadTorque 30 ≤ calculateLoadTorque 60 ∧
    (0 ≤ calculateLoadTorque 30 ∧ calculateLoadTorque 30 ≤ 5.886) :=
  ⟨by norm_num, by norm_num, by norm_num,
    C16_load_torque.2.2.2.2 30 60 (by norm_num) (by norm_num) (by norm_num),
    C16_load_torque.2.2.2.1 30 (by norm_num) (by norm_num)⟩

/-- C17: the commanded position jumps at the constant-to-deceleration boundary
of the configured upward segment (`start = 0`, `end = 90`, `total = 3`). At
`elapsed = 5/2` the constant-velocity branch is taken and returns `135/2 = 67.5`,
while the deceleration formula `end - 0.5 * ACCELERATION * (total - 5/2) ^ 2`
gives `165/2 = 82.5` at that instant; 10 ms later the deceleration branch
returns `82797/1000 = 82.797`. -/
theorem C17_jump_at_deceleration_boundary (self : PendulumController) :
    (profileSample MIN_ANGLE MAX_ANGLE (5/2) 3).phase = ProfilePhase.constant ∧
    (generateMotionProfile self MIN_ANGLE MAX_ANGLE (5/2) 3).1 = 135 / 2 ∧
    MAX_ANGLE - 0.5 * ACCELERATION * (3 - 5/2) ^ 2 = 165 / 2 ∧
    (generateMotionProfile self MIN_ANGLE MAX_ANGLE (5/2) 3).1
      ≠ MAX_ANGLE - 0.5 * ACCELERATION * (3 - 5/2) ^ 2 ∧
    (profileSample MIN_ANGLE MAX_ANGLE (251/100) 3).phase = ProfilePhase.deceleration ∧
    (generateMotionProfile self MIN_ANGLE MAX_ANGLE (251/100) 3).1 = 82797 / 1000 := by
  simp only [generateMotionProfile, profileSample, MIN_ANGLE, MAX_ANGLE, MAX_VELOCITY,
    ACCELERATION]
  norm_num

/-- Position returned for the configured upward segment, by cases on `elapsed`. -/
theorem profileSample_upward_position (e : ℚ) :
    (profileSample MIN_ANGLE MAX_ANGLE e motion_time).position =
      if e ≤ 1 / 2 then 30 * e * e
      else if e ≤ 5 / 2 then 15 / 2 + 30 * (e - 1 / 2)
      else if e < 3 then 90 - 30 * (3 - e) * (3 - e)
      else 90 := by
  simp only [profileSample, MIN_ANGLE, MAX_ANGLE, MAX_VELOCITY, ACCELERATION, motion_time]
  norm_num
  split_ifs <;> ring

/-- C18: for the configured upward segment (`start = MIN_ANGLE = 0`,
`end = MAX_ANGLE = 90`, `total = 3`), the position returned by
`generateMotionProfile` stays within `[0, 90]` for every `elapsed` in `[0, 3]`
and is non-decreasing in `elapsed` over `[0, 3]`, across the acceleration,
constant, deceleration and endpoint branches. -/
theorem C18_upward_segment_monotone (self other : PendulumController) :
    (∀ e : ℚ, 0 ≤ e → e ≤ 3 →
      MIN_ANGLE ≤ (generateMotionProfile self MIN_ANGLE MAX_ANGLE e motion_time).1 ∧
      (generateMotionProfile self MIN_ANGLE MAX_ANGLE e motion_time).1 ≤ MAX_ANGLE) ∧
    (∀ e1 e2 : ℚ, 0 ≤ e1 → e1 ≤ e2 → e2 ≤ 3 →
      (generateMotionProfile self MIN_ANGLE MAX_ANGLE e1 motion_time).1
        ≤ (generateMotionProfile other MIN_ANGLE MAX_ANGLE e2 motion_time).1) := by
  constructor
  · intro e h0 h3
    simp only [generateMotionProfile, profileSample_upward_position]
    simp only [MIN_ANGLE, MAX_ANGLE]
    split_ifs <;> constructor <;> nlinarith
  · intro e1 e2 h0 h12 h3
    simp only [generateMotionProfile, profileSample_upward_position]
    split_ifs <;> nlinarith

theorem C18_upward_segment_monotone_witness :
    (0 : ℚ) ≤ 1 ∧ (1 : ℚ) ≤ 2 ∧ (2 : ℚ) ≤ 3 ∧
    (generateMotionProfile (PendulumController.construct 0) MIN_ANGLE MAX_ANGLE 1 motion_time).1
      ≤ (generateMotionProfile (PendulumController.construct 0) MIN_ANGLE MAX_ANGLE 2 motion_time).1 ∧
    (MIN_ANGLE ≤
        (generateMotionProfile (PendulumController.construct 0) MIN_ANGLE MAX_ANGLE 1 motion_time).1 ∧
      (generateMotionProfile (PendulumController.construct 0) MIN_ANGLE MAX_ANGLE 1 motion_time).1
        ≤ MAX_ANGLE) :=
  ⟨by norm_num, by norm_num, by norm_num,
    (C18_upward_segment_monotone (PendulumController.construct 0)
      (PendulumController.construct 0)).2 1 2 (by norm_num) (by norm_num) (by norm_num),
    (C18_upward_segment_monotone (PendulumController.construct 0)
      (PendulumController.construct 0)).1 1 (by norm_num) (by norm_num)⟩

/-- C19: velocity bound. For every `start`, `end`, every `total` (in particular
every `total ≥ 0`) and every `elapsed ≥ 0`, the velocity stored by
`generateMotionProfile` satisfies `|velocity| ≤ MAX_VELOCITY`, in the
trapezoidal as well as in the triangular regime. -/
theorem C19_velocity_bound (self : PendulumController)
    (start_pos end_pos current_time total_time : ℚ) (helapsed : 0 ≤ current_time) :
    |(generateMotionProfile self start_pos end_pos current_time total_time).2.current_velocity_|
      ≤ MAX_VELOCITY := by
  rw [abs_le]
  simp only [generateMotionProfile, profileSample, MAX_VELOCITY, ACCELERATION]
  constructor <;> split_ifs <;> norm_num at * <;> linarith

theorem C19_velocity_bound_witness :
    (0 : ℚ) ≤ 1 / 4 ∧
    |(generateMotionProfile (PendulumController.construct 0) 90 0 (1/4)
        (1/2)).2.current_velocity_| ≤ MAX_VELOCITY :=
  ⟨by norm_num, C19_velocity_bound (PendulumController.construct 0) 90 0 (1/4) (1/2) (by norm_num)⟩

end PendulumControl
